import Mathlib

/-!
Shallow embedding of the go-retry-mechanism repository (package `retry`,
file retry.go) and proofs about it.

Modelling conventions:
* Go `error` values are modelled by the inductive `GoError`.  The
  constructors cover exactly the shapes that `IsRetryable` inspects:
  the sentinels `context.Canceled` and `context.DeadlineExceeded`,
  the package's `RetryableError` wrapper, values implementing `net.Error`
  (carrying the results of their `Temporary()`/`Timeout()` methods),
  `syscall.Errno` values, `fmt.Errorf("...: %w", e)` wrappers, and
  arbitrary further errors (`plainError`).
* `errors.Is` / `errors.As` walk the `Unwrap` chain; only `RetryableError`
  and `fmt.Errorf`-wrappers have an `Unwrap` method.
* `context.DeadlineExceeded` implements `net.Error` with
  `Temporary() = Timeout() = true` (Go standard library), and
  `syscall.Errno` implements `net.Error` with
  `Temporary() = (e ∈ {EINTR,EMFILE,ENFILE}) || Timeout()` and
  `Timeout() = (e ∈ {EAGAIN,EWOULDBLOCK,ETIMEDOUT})` (Linux).
* `time.Duration` is an `int64` count of nanoseconds, modelled as `Int`;
  Go `float64` arithmetic is modelled exactly over `Rat`; the conversion
  `time.Duration(f)` of a non-negative float truncates, i.e. takes the floor.
* The executor's interaction with the outside world is made explicit:
  the operation is a function from the attempt index to its result
  (`none` = Go `nil`), the context is a function telling for each attempt
  whether `ctx.Done()` fires during (wins the select of) the wait that
  follows that attempt, and the jitter source is a function giving the
  `rand.Float64()` draw consumed by the backoff computation after each
  attempt.  I/O and callback effects are recorded in an event trace.
-/

namespace Retry

/-- Model of Go error values, covering the shapes `IsRetryable` inspects. -/
inductive GoError where
  | canceled : GoError
  | deadlineExceeded : GoError
  | retryableError (cause : GoError) : GoError
  | netError (temporary timeout : Bool) (msg : String) : GoError
  | errno (code : Nat) : GoError
  | wrapf (tag : String) (cause : GoError) : GoError
  | plainError (msg : String) : GoError
deriving DecidableEq, Repr

/-- syscall.ECONNREFUSED on Linux. -/
def ECONNREFUSED : Nat := 111

/-- syscall.ECONNRESET on Linux. -/
def ECONNRESET : Nat := 104

/-- syscall.EINTR on Linux. -/
def EINTR : Nat := 4

/-- syscall.EMFILE on Linux. -/
def EMFILE : Nat := 24

/-- syscall.ENFILE on Linux. -/
def ENFILE : Nat := 23

/-- syscall.EAGAIN on Linux. -/
def EAGAIN : Nat := 11

/-- syscall.EWOULDBLOCK on Linux (same value as EAGAIN). -/
def EWOULDBLOCK : Nat := 11

/-- syscall.ETIMEDOUT on Linux. -/
def ETIMEDOUT : Nat := 110

/-- `syscall.Errno.Timeout()` (Go standard library, Unix). -/
def errnoTimeout (code : Nat) : Bool :=
  code == EAGAIN || code == EWOULDBLOCK || code == ETIMEDOUT

/-- `syscall.Errno.Temporary()` (Go standard library, Unix). -/
def errnoTemporary (code : Nat) : Bool :=
  code == EINTR || code == EMFILE || code == ENFILE || errnoTimeout code

/-- `errors.Is(e, target)`: equality at each node of the unwrap chain.
Only `RetryableError` and `fmt.Errorf("%w")` wrappers have `Unwrap`. -/
def errorsIs (e target : GoError) : Bool :=
  e == target ||
    match e with
    | .retryableError c => errorsIs c target
    | .wrapf _ c => errorsIs c target
    | _ => false

/-- `errors.As(e, &retryableErr)` with target type `RetryableError`:
first node of the unwrap chain whose concrete type is `RetryableError`. -/
def asRetryableError (e : GoError) : Option GoError :=
  match e with
  | .retryableError c => some (.retryableError c)
  | .wrapf _ c => asRetryableError c
  | _ => none

/-- `errors.As(e, &netErr)` with target interface `net.Error`: first node of
the unwrap chain implementing `net.Error`, reported as the pair
`(Temporary(), Timeout())`.  `context.DeadlineExceeded` and `syscall.Errno`
implement `net.Error`; `RetryableError` and `fmt.Errorf` wrappers do not. -/
def asNetError (e : GoError) : Option (Bool × Bool) :=
  match e with
  | .netError temporary timeout _ => some (temporary, timeout)
  | .deadlineExceeded => some (true, true)
  | .errno code => some (errnoTemporary code, errnoTimeout code)
  | .retryableError c => asNetError c
  | .wrapf _ c => asNetError c
  | _ => none

/-- `errors.As(e, &syscallErr)` with target type `syscall.Errno`. -/
def asErrno (e : GoError) : Option Nat :=
  match e with
  | .errno code => some code
  | .retryableError c => asErrno c
  | .wrapf _ c => asErrno c
  | _ => none

/-- `IsRetryable` from retry.go. -/
def IsRetryable (err : GoError) : Bool :=
  if errorsIs err .canceled then false
  else
    match asRetryableError err with
    | some _ => true
    | none =>
      match asNetError err with
      | some (temporary, timeout) => temporary || timeout
      | none =>
        match asErrno err with
        | some code =>
            errorsIs (.errno code) (.errno ECONNREFUSED) ||
              errorsIs (.errno code) (.errno ECONNRESET)
        | none => false

/-- `IsRetryableHTTPStatus` from retry.go. -/
def IsRetryableHTTPStatus (statusCode : Int) : Bool :=
  statusCode == 408 || statusCode == 429 || statusCode == 500 ||
    statusCode == 502 || statusCode == 503 || statusCode == 504

/-- `Config` from retry.go; durations are nanosecond counts. -/
structure Config where
  MaxRetries : Int
  InitialBackoff : Int
  MaxBackoff : Int
  BackoffFactor : Rat
  JitterFactor : Rat
deriving DecidableEq, Repr

/-- `calculateBackoff` from retry.go.  `r` is the `rand.Float64()` draw
(a value in `[0,1)`); float arithmetic is modelled exactly over `Rat` and
the final `time.Duration(finalBackoff)` conversion of the non-negative
float truncates to whole nanoseconds. -/
def calculateBackoff (attempt : Nat) (config : Config) (r : Rat) : Int :=
  let backoff : Rat := (config.InitialBackoff : Rat) * config.BackoffFactor ^ attempt
  let backoff : Rat :=
    if backoff > (config.MaxBackoff : Rat) then (config.MaxBackoff : Rat) else backoff
  let jitter : Rat := (r - 1/2) * config.JitterFactor * backoff
  let finalBackoff : Rat := backoff + jitter
  let finalBackoff : Rat := if finalBackoff < 0 then 0 else finalBackoff
  ⌊finalBackoff⌋

/-- Observable effects of one executor run: invoking the operation, the
`fmt.Printf` diagnostic inside `Do`'s loop (with its arguments
`attempt`, `config.MaxRetries`, `lastErr`), and the `notify` callback
invocation of `DoWithNotify` (with its arguments `lastErr`, `backoff`). -/
inductive Event where
  | invoke (attempt : Nat) : Event
  | printAttempt (attempt : Nat) (maxRetries : Int) (err : GoError) : Event
  | notifyCall (err : GoError) (backoff : Int) : Event
deriving DecidableEq, Repr

/-- Whether an event is the `fmt.Printf` console write of `Do`. -/
def Event.isPrintAttempt : Event → Bool
  | .printAttempt _ _ _ => true
  | _ => false

/-- The Go `error` value returned by one executor run: `success` is the
`nil` return; `failure tag cause` is `fmt.Errorf(tag + ": %w", lastErr)`
(with `cause = none` in the degenerate case `lastErr == nil`, reachable
only when the loop body never runs). -/
inductive RunResult where
  | success : RunResult
  | failure (tag : String) (cause : Option GoError) : RunResult
deriving DecidableEq, Repr

/-- Result, event trace and operation-invocation count of one run. -/
structure RunOutput where
  result : RunResult
  trace : List Event
  invocations : Nat
deriving DecidableEq, Repr

/-- Loop of `Do` from retry.go.  `fuel` is the number of loop iterations
still allowed by the guard `attempt < config.MaxRetries`; the caller
maintains `attempt + fuel = config.MaxRetries.toNat`.  `op i` is the result
of the `operation()` call of attempt `i` (`none` = Go `nil`); `ctxDone i`
tells whether `ctx.Done()` wins the select during the wait after attempt
`i`; `rand i` is the `rand.Float64()` draw consumed by the
`calculateBackoff` call after attempt `i`. -/
def doAux (config : Config) (op : Nat → Option GoError) (ctxDone : Nat → Bool)
    (rand : Nat → Rat) (attempt fuel : Nat) (lastErr : Option GoError)
    (tr : List Event) (count : Nat) : RunOutput :=
  match fuel with
  | 0 => ⟨.failure "retries exceeded" lastErr, tr, count⟩
  | fuel + 1 =>
    match op attempt with
    | none => ⟨.success, tr ++ [.invoke attempt], count + 1⟩
    | some e =>
      let tr := tr ++ [.invoke attempt, .printAttempt attempt config.MaxRetries e]
      if !IsRetryable e then
        ⟨.failure "not retryable error" (some e), tr, count + 1⟩
      else if (attempt : Int) = config.MaxRetries then
        ⟨.failure "retries exceeded" (some e), tr, count + 1⟩
      else
        let backoff := calculateBackoff attempt config (rand attempt)
        if ctxDone attempt then
          ⟨.failure "timed out" (some e), tr, count + 1⟩
        else
          have := backoff
          doAux config op ctxDone rand (attempt + 1) fuel (some e) tr (count + 1)

/-- `Do` from retry.go. -/
def Do (config : Config) (op : Nat → Option GoError) (ctxDone : Nat → Bool)
    (rand : Nat → Rat) : RunOutput :=
  doAux config op ctxDone rand 0 config.MaxRetries.toNat none [] 0

/-- Loop of `DoWithNotify` from retry.go.  `notifyNonNil` records whether
the `notify` callback argument is non-nil; the callback returns nothing,
so its only modelled effect is the `notifyCall` trace event. -/
def doWithNotifyAux (config : Config) (op : Nat → Option GoError)
    (ctxDone : Nat → Bool) (rand : Nat → Rat) (notifyNonNil : Bool)
    (attempt fuel : Nat) (lastErr : Option GoError) (tr : List Event)
    (count : Nat) : RunOutput :=
  match fuel with
  | 0 => ⟨.failure "retries exceeded" lastErr, tr, count⟩
  | fuel + 1 =>
    match op attempt with
    | none => ⟨.success, tr ++ [.invoke attempt], count + 1⟩
    | some e =>
      let tr := tr ++ [.invoke attempt]
      if !IsRetryable e then
        ⟨.failure "not retryable error" (some e), tr, count + 1⟩
      else if (attempt : Int) = config.MaxRetries then
        ⟨.failure "retries exceeded" (some e), tr, count + 1⟩
      else
        let backoff := calculateBackoff attempt config (rand attempt)
        let tr := if notifyNonNil then tr ++ [.notifyCall e backoff] else tr
        if ctxDone attempt then
          ⟨.failure "timed out" (some e), tr, count + 1⟩
        else
          doWithNotifyAux config op ctxDone rand notifyNonNil (attempt + 1) fuel
            (some e) tr (count + 1)

/-- `DoWithNotify` from retry.go. -/
def DoWithNotify (config : Config) (op : Nat → Option GoError)
    (ctxDone : Nat → Bool) (rand : Nat → Rat) (notifyNonNil : Bool) : RunOutput :=
  doWithNotifyAux config op ctxDone rand notifyNonNil 0 config.MaxRetries.toNat
    none [] 0

/-- Erase every message string from an error value, keeping the structure a
caller can observe without reading messages: the unwrap chain, sentinel
identities, concrete types, and `Temporary()`/`Timeout()` results. -/
def eraseMsg : GoError → GoError
  | .canceled => .canceled
  | .deadlineExceeded => .deadlineExceeded
  | .retryableError c => .retryableError (eraseMsg c)
  | .netError temporary timeout _ => .netError temporary timeout ""
  | .errno code => .errno code
  | .wrapf _ c => .wrapf "" (eraseMsg c)
  | .plainError _ => .plainError ""

/-- Erase message strings from a run result: the `fmt.Errorf` message tag
is part of the message, and the cause keeps only its structure. -/
def eraseResultMsg : RunResult → RunResult
  | .success => .success
  | .failure _ cause => .failure "" (cause.map eraseMsg)

/-- The three terminal failure reasons, and the message tag by which the
returned error identifies each. -/
inductive FailReason where
  | nonRetryable : FailReason
  | exhausted : FailReason
  | cancelled : FailReason
deriving DecidableEq, Repr

/-- Map the message tag of a returned failure to its reason. -/
def reasonOfTag : String → Option FailReason
  | "not retryable error" => some .nonRetryable
  | "retries exceeded" => some .exhausted
  | "timed out" => some .cancelled
  | _ => none

/-- A retryably-failing operation result, as built by the repository's own
tests: `RetryableError{errors.New("boom")}`. -/
def eRetry : GoError := .retryableError (.plainError "boom")

/-- A non-retryable operation error: a plain `errors.New` value. -/
def eFatal : GoError := .plainError "fatal"

/-- A context that never becomes done. -/
def ctxNever : Nat → Bool := fun _ => false

/-- A context whose `Done` channel wins the select during the wait that
follows attempt 0. -/
def ctxAt0 : Nat → Bool := fun i => i == 0

/-- A context whose `Done` channel wins the select during the wait that
follows attempt 1. -/
def ctxAt1 : Nat → Bool := fun i => i == 1

/-- A fixed jitter-source draw sequence (all draws 0). -/
def rand0 : Nat → Rat := fun _ => 0

/-- An operation failing retryably on every invocation. -/
def opAlways : Nat → Option GoError := fun _ => some eRetry

/-- An operation failing non-retryably on every invocation. -/
def opFatal : Nat → Option GoError := fun _ => some eFatal

/-- An operation failing retryably on its first invocation and succeeding
from the second invocation on. -/
def opSucceedAt1 : Nat → Option GoError := fun i => if i == 0 then some eRetry else none

/-- The spec's §8 backoff table policy: initialWait 100ms, maxWait 5s,
growthFactor 2.0, jitterFraction 0 (durations in nanoseconds). -/
def cfg100 : Config := ⟨3, 100000000, 5000000000, 2, 0⟩

/-- A policy whose exponential term is a non-integer nanosecond count:
initialWait 1ns, growthFactor 1.5, maxWait 100ns, jitterFraction 0. -/
def cfgFrac : Config := ⟨1, 1, 100, 3/2, 0⟩

/-- A policy with a single permitted attempt and zero jitter. -/
def cfg1 : Config := ⟨1, 10, 100, 2, 0⟩

/-- A policy with two permitted attempts. -/
def cfg2 : Config := ⟨2, 10, 100, 2, 1/10⟩

/-- A policy with three permitted attempts and zero jitter. -/
def cfg3 : Config := ⟨3, 10, 100, 2, 0⟩

/-- Go's `if a > b then b else a` is the minimum. -/
lemma goIfMin (a b : Rat) : (if a > b then b else a) = min a b := by
  rcases lt_or_le b a with h | h
  · rw [if_pos h, min_eq_right h.le]
  · rw [if_neg (not_lt.mpr h), min_eq_left h]

/-- With `JitterFactor = 0` the backoff is the floor of the clamped
exponential, except that a negative clamped value is floored to 0. -/
lemma calculateBackoff_jitterZero (attempt : Nat) (config : Config) (r : Rat)
    (hj : config.JitterFactor = 0) :
    calculateBackoff attempt config r =
      (if min ((config.InitialBackoff : Rat) * config.BackoffFactor ^ attempt)
            (config.MaxBackoff : Rat) < 0 then 0
       else ⌊min ((config.InitialBackoff : Rat) * config.BackoffFactor ^ attempt)
            (config.MaxBackoff : Rat)⌋) := by
  simp only [calculateBackoff, hj, mul_zero, zero_mul, add_zero, goIfMin]
  split <;> simp

/-- Under the spec's policy invariants the clamped exponential is
non-negative. -/
lemma minClamp_nonneg (attempt : Nat) (config : Config)
    (hi : 0 ≤ config.InitialBackoff) (hf : 1 ≤ config.BackoffFactor)
    (him : config.InitialBackoff ≤ config.MaxBackoff) :
    0 ≤ min ((config.InitialBackoff : Rat) * config.BackoffFactor ^ attempt)
        (config.MaxBackoff : Rat) := by
  have h0 : (0 : Rat) ≤ (config.InitialBackoff : Rat) := by exact_mod_cast hi
  have hmax : (0 : Rat) ≤ (config.MaxBackoff : Rat) := by
    exact_mod_cast le_trans hi him
  have hpow : (0 : Rat) ≤ config.BackoffFactor ^ attempt :=
    pow_nonneg (le_trans zero_le_one hf) attempt
  exact le_min (mul_nonneg h0 hpow) hmax

/-- The exponential term is monotone in the attempt index. -/
lemma rawBackoff_mono (config : Config) (hi : 0 ≤ config.InitialBackoff)
    (hf : 1 ≤ config.BackoffFactor) {i j : Nat} (hij : i ≤ j) :
    (config.InitialBackoff : Rat) * config.BackoffFactor ^ i ≤
      (config.InitialBackoff : Rat) * config.BackoffFactor ^ j := by
  have h0 : (0 : Rat) ≤ (config.InitialBackoff : Rat) := by exact_mod_cast hi
  exact mul_le_mul_of_nonneg_left (pow_le_pow_right₀ hf hij) h0

/-- Under the spec's policy invariants and zero jitter, the computed wait
is the floor of the clamped exponential. -/
lemma calculateBackoff_det (attempt : Nat) (config : Config) (r : Rat)
    (hj : config.JitterFactor = 0) (hi : 0 ≤ config.InitialBackoff)
    (hf : 1 ≤ config.BackoffFactor)
    (him : config.InitialBackoff ≤ config.MaxBackoff) :
    calculateBackoff attempt config r =
      ⌊min ((config.InitialBackoff : Rat) * config.BackoffFactor ^ attempt)
        (config.MaxBackoff : Rat)⌋ := by
  rw [calculateBackoff_jitterZero attempt config r hj,
    if_neg (not_lt.mpr (minClamp_nonneg attempt config hi hf him))]

end Retry

namespace Retry

/-- C1: the claim states that every error that is or wraps either sentinel
of the caller's context — `context.Canceled` or `context.DeadlineExceeded`
— is classified not retryable.  This is false at the concrete input
`context.DeadlineExceeded`: `IsRetryable` only short-circuits on
`context.Canceled`, and `context.DeadlineExceeded` implements `net.Error`
with `Timeout() = true`, so the transport rule classifies it retryable. -/
theorem C1_counterexample :
    errorsIs GoError.deadlineExceeded GoError.deadlineExceeded = true ∧
    IsRetryable GoError.deadlineExceeded = true ∧
    ¬ (∀ e : GoError, errorsIs e GoError.canceled = true ∨
        errorsIs e GoError.deadlineExceeded = true → IsRetryable e = false) :=
  ⟨by decide, by decide, fun h => by
    have := h GoError.deadlineExceeded (Or.inr (by decide))
    exact absurd this (by decide)⟩

/-- C1 (amended): every error value that is, or wraps, `context.Canceled`
is classified not retryable, and this takes precedence over every later
rule (the explicit retryable marker and the transport rules included);
deadline expiry is instead classified retryable by the transport rule. -/
theorem C1_amended (err : GoError) (h : errorsIs err GoError.canceled = true) :
    IsRetryable err = false := by
  simp [IsRetryable, h]

/-- C1 amended witness: a `RetryableError` marker wrapped around
`context.Canceled` is still classified not retryable — the cancellation
rule precedes the marker rule. -/
theorem C1_amended_witness :
    errorsIs (GoError.retryableError GoError.canceled) GoError.canceled = true ∧
    IsRetryable (GoError.retryableError GoError.canceled) = false :=
  ⟨by decide, C1_amended (GoError.retryableError GoError.canceled) (by decide)⟩

/-- C5: the claim states that with `jitterFraction = 0` the computed wait
equals `min(initialWait * growthFactor^attemptIndex, maxWait)` exactly,
for every policy and attempt index.  This fails when the exponential term
is not a whole number of nanoseconds: with initialWait 1ns, growthFactor
1.5, maxWait 100ns at attempt index 1 the exact minimum is 1.5ns while
`calculateBackoff` returns `time.Duration(1.5) = 1ns`. -/
theorem C5_counterexample :
    cfgFrac.JitterFactor = 0 ∧
    ¬ (((calculateBackoff 1 cfgFrac 0 : Int) : Rat) =
        min ((cfgFrac.InitialBackoff : Rat) * cfgFrac.BackoffFactor ^ 1)
          (cfgFrac.MaxBackoff : Rat)) := by
  constructor
  · rfl
  · have h1 : calculateBackoff 1 cfgFrac 0 = 1 := by
      norm_num [calculateBackoff, cfgFrac]
    rw [h1]
    norm_num [cfgFrac]

/-- C5 (amended): for every attempt index and policy satisfying the spec's
invariants (`initialWait ≥ 0`, `growthFactor ≥ 1`, `maxWait ≥ initialWait`)
with `jitterFraction = 0`, the computed wait is
`min(initialWait * growthFactor^attemptIndex, maxWait)` truncated to a
whole number of nanoseconds (the `time.Duration` conversion), which agrees
with the exact minimum at the spec's table: 100ms, 200ms, 400ms, 800ms at
indices 0–3 and 5s (clamped) at index 10. -/
theorem C5_amended (attempt : Nat) (config : Config) (r : Rat)
    (hj : config.JitterFactor = 0) (hi : 0 ≤ config.InitialBackoff)
    (hf : 1 ≤ config.BackoffFactor)
    (him : config.InitialBackoff ≤ config.MaxBackoff) :
    calculateBackoff attempt config r =
      ⌊min ((config.InitialBackoff : Rat) * config.BackoffFactor ^ attempt)
        (config.MaxBackoff : Rat)⌋ :=
  calculateBackoff_det attempt config r hj hi hf him

/-- C5 amended witness: the amended formula applied to the spec's table
policy at index 10, together with the concrete table values. -/
theorem C5_amended_witness :
    calculateBackoff 10 cfg100 (7/9) =
      ⌊min ((cfg100.InitialBackoff : Rat) * cfg100.BackoffFactor ^ 10)
        (cfg100.MaxBackoff : Rat)⌋ ∧
    calculateBackoff 0 cfg100 (7/9) = 100000000 ∧
    calculateBackoff 1 cfg100 (7/9) = 200000000 ∧
    calculateBackoff 2 cfg100 (7/9) = 400000000 ∧
    calculateBackoff 3 cfg100 (7/9) = 800000000 ∧
    calculateBackoff 10 cfg100 (7/9) = 5000000000 :=
  ⟨C5_amended 10 cfg100 (7/9) rfl (by decide) (by norm_num [cfg100]) (by decide),
    by norm_num [calculateBackoff, cfg100], by norm_num [calculateBackoff, cfg100],
    by norm_num [calculateBackoff, cfg100], by norm_num [calculateBackoff, cfg100],
    by norm_num [calculateBackoff, cfg100]⟩

/-- C9: with `jitterFraction = 0` and `growthFactor > 1` (and the spec's
policy invariants `initialWait ≥ 0`, `maxWait ≥ initialWait`), the
computed wait is non-decreasing in the attempt index, and once it equals
`maxWait` it equals `maxWait` at every larger index. -/
theorem C9_confirmed (config : Config) (hj : config.JitterFactor = 0)
    (hg : 1 < config.BackoffFactor) (hi : 0 ≤ config.InitialBackoff)
    (him : config.InitialBackoff ≤ config.MaxBackoff) :
    (∀ i j : Nat, ∀ r s : Rat, i ≤ j →
        calculateBackoff i config r ≤ calculateBackoff j config s) ∧
    (∀ i : Nat, ∀ r : Rat, calculateBackoff i config r = config.MaxBackoff →
        ∀ j : Nat, ∀ s : Rat, i ≤ j →
          calculateBackoff j config s = config.MaxBackoff) := by
  have hf : 1 ≤ config.BackoffFactor := hg.le
  constructor
  · intro i j r s hij
    rw [calculateBackoff_det i config r hj hi hf him,
      calculateBackoff_det j config s hj hi hf him]
    exact Int.floor_le_floor (min_le_min (rawBackoff_mono config hi hf hij) le_rfl)
  · intro i r hmax j s hij
    rw [calculateBackoff_det i config r hj hi hf him] at hmax
    have hle : (config.MaxBackoff : Rat) ≤
        (config.InitialBackoff : Rat) * config.BackoffFactor ^ i := by
      have h1 : (config.MaxBackoff : Rat) ≤
          min ((config.InitialBackoff : Rat) * config.BackoffFactor ^ i)
            (config.MaxBackoff : Rat) :=
        Int.le_floor.mp (le_of_eq hmax.symm)
      exact le_trans h1 (min_le_left _ _)
    rw [calculateBackoff_det j config s hj hi hf him,
      min_eq_right (le_trans hle (rawBackoff_mono config hi hf hij)),
      Int.floor_intCast]

/-- C9 witness: monotonicity and ceiling absorption instantiated on the
spec's table policy. -/
theorem C9_confirmed_witness :
    calculateBackoff 2 cfg100 0 ≤ calculateBackoff 7 cfg100 (1/3) :=
  (C9_confirmed cfg100 rfl (by norm_num [cfg100]) (by decide) (by decide)).1 2 7 0
    (1/3) (by decide)

/-- If every invocation fails retryably and the context never becomes done,
the loop runs out its full budget and reports exhaustion, having invoked
the operation once per remaining iteration. -/
lemma doAux_exhaust (config : Config) (op : Nat → Option GoError)
    (ctxDone : Nat → Bool) (rand : Nat → Rat)
    (hop : ∀ i, ∃ e, op i = some e ∧ IsRetryable e = true)
    (hctx : ∀ i, ctxDone i = false) :
    ∀ fuel attempt lastErr tr count, attempt + fuel ≤ config.MaxRetries.toNat →
      (∃ c, (doAux config op ctxDone rand attempt fuel lastErr tr count).result
          = .failure "retries exceeded" c) ∧
      (doAux config op ctxDone rand attempt fuel lastErr tr count).invocations
          = count + fuel := by
  intro fuel
  induction fuel with
  | zero => intro attempt lastErr tr count _; exact ⟨⟨lastErr, rfl⟩, rfl⟩
  | succ n ih =>
    intro attempt lastErr tr count hle
    obtain ⟨e, hoe, hre⟩ := hop attempt
    have hne : ¬ ((attempt : Int) = config.MaxRetries) := by omega
    have hrec := ih (attempt + 1)
      (some e) (tr ++ [.invoke attempt, .printAttempt attempt config.MaxRetries e])
      (count + 1) (by omega)
    simp only [doAux, hoe, hre, Bool.not_true, Bool.false_eq_true, if_false,
      if_neg hne, hctx attempt]
    exact ⟨hrec.1, by rw [hrec.2]; omega⟩

/-- The loop never invokes the operation more often than the remaining
iteration budget allows. -/
lemma doAux_bound (config : Config) (op : Nat → Option GoError)
    (ctxDone : Nat → Bool) (rand : Nat → Rat) :
    ∀ fuel attempt lastErr tr count,
      (doAux config op ctxDone rand attempt fuel lastErr tr count).invocations ≤
        count + fuel := by
  intro fuel
  induction fuel with
  | zero => intro attempt lastErr tr count; exact Nat.le_refl _
  | succ n ih =>
    intro attempt lastErr tr count
    simp only [doAux]
    split
    · simp
    · split
      · simp
      · split
        · simp
        · split
          · simp
          · exact le_trans (ih _ _ _ _) (by omega)

/-- C6: with an uncancelled context and an operation failing retryably on
every invocation, `Do` returns the exhaustion failure after invoking the
operation exactly `MaxRetries` times; and no run whatsoever invokes the
operation more than `MaxRetries` times. -/
theorem C6_confirmed (config : Config) (op : Nat → Option GoError)
    (ctxDone : Nat → Bool) (rand : Nat → Rat)
    (hop : ∀ i, ∃ e, op i = some e ∧ IsRetryable e = true)
    (hctx : ∀ i, ctxDone i = false) :
    (∃ c, (Do config op ctxDone rand).result = .failure "retries exceeded" c) ∧
    (Do config op ctxDone rand).invocations = config.MaxRetries.toNat ∧
    (∀ (ctx2 : Nat → Bool) (op2 : Nat → Option GoError) (rand2 : Nat → Rat),
        (Do config op2 ctx2 rand2).invocations ≤ config.MaxRetries.toNat) := by
  have h := doAux_exhaust config op ctxDone rand hop hctx
    config.MaxRetries.toNat 0 none [] 0 (by omega)
  refine ⟨h.1, by simpa using h.2, ?_⟩
  intro ctx2 op2 rand2
  simpa using doAux_bound config op2 ctx2 rand2 config.MaxRetries.toNat 0 none [] 0

/-- C6 witness: the always-retryably-failing operation against the
two-attempt policy, with an uncancelled context. -/
theorem C6_confirmed_witness :
    (∃ c, (Do cfg2 opAlways ctxNever rand0).result =
        RunResult.failure "retries exceeded" c) ∧
    (Do cfg2 opAlways ctxNever rand0).invocations = cfg2.MaxRetries.toNat ∧
    (Do cfg2 opAlways ctxAt1 rand0).invocations ≤ cfg2.MaxRetries.toNat :=
  have h := C6_confirmed cfg2 opAlways ctxNever rand0
    (fun _ => ⟨eRetry, rfl, by decide⟩) (fun _ => rfl)
  ⟨h.1, h.2.1, h.2.2 ctxAt1 opAlways rand0⟩

/-- C7: when the first invocation fails with a non-retryable error, `Do`
returns the non-retryable failure wrapping that error after exactly one
invocation, for every `MaxRetries ≥ 1`; the returned value differs from
every exhaustion failure value. -/
theorem C7_confirmed (config : Config) (op : Nat → Option GoError)
    (ctxDone : Nat → Bool) (rand : Nat → Rat) (e : GoError)
    (hM : 1 ≤ config.MaxRetries) (h0 : op 0 = some e)
    (hnr : IsRetryable e = false) :
    (Do config op ctxDone rand).result = .failure "not retryable error" (some e) ∧
    (Do config op ctxDone rand).invocations = 1 ∧
    (∀ c : Option GoError,
        RunResult.failure "not retryable error" (some e) ≠
          RunResult.failure "retries exceeded" c) := by
  obtain ⟨k, hk⟩ : ∃ k, config.MaxRetries.toNat = k + 1 :=
    ⟨config.MaxRetries.toNat - 1, by omega⟩
  refine ⟨?_, ?_, ?_⟩
  · show (doAux config op ctxDone rand 0 config.MaxRetries.toNat none [] 0).result = _
    rw [hk]
    simp [doAux, h0, hnr]
  · show (doAux config op ctxDone rand 0 config.MaxRetries.toNat none [] 0).invocations = 1
    rw [hk]
    simp [doAux, h0, hnr]
  · intro c hcon
    injection hcon with h1 _
    exact absurd h1 (by decide)

/-- C7 witness: a plain (non-retryable) error against the three-attempt
policy fails after a single invocation. -/
theorem C7_confirmed_witness :
    (1 : Int) ≤ cfg3.MaxRetries ∧
    (Do cfg3 opFatal ctxNever rand0).result =
      RunResult.failure "not retryable error" (some eFatal) ∧
    (Do cfg3 opFatal ctxNever rand0).invocations = 1 :=
  have h := C7_confirmed cfg3 opFatal ctxNever rand0 eFatal (by decide) rfl (by decide)
  ⟨by decide, h.1, h.2.1⟩

/-- C8: when the first two invocations fail retryably and the context
becomes done during the wait after the second attempt (and not during the
wait after the first), `Do` returns the cancellation failure carrying the
second attempt's error, having invoked the operation exactly twice. -/
theorem C8_confirmed (config : Config) (op : Nat → Option GoError)
    (ctxDone : Nat → Bool) (rand : Nat → Rat) (e0 e1 : GoError)
    (hM : 2 ≤ config.MaxRetries)
    (h0 : op 0 = some e0) (hr0 : IsRetryable e0 = true)
    (h1 : op 1 = some e1) (hr1 : IsRetryable e1 = true)
    (hc0 : ctxDone 0 = false) (hc1 : ctxDone 1 = true) :
    (Do config op ctxDone rand).result = .failure "timed out" (some e1) ∧
    (Do config op ctxDone rand).invocations = 2 := by
  obtain ⟨k, hk⟩ : ∃ k, config.MaxRetries.toNat = k + 2 :=
    ⟨config.MaxRetries.toNat - 2, by omega⟩
  have hne0 : ¬ ((0 : Int) = config.MaxRetries) := by omega
  have hne1 : ¬ ((1 : Int) = config.MaxRetries) := by omega
  constructor
  · show (doAux config op ctxDone rand 0 config.MaxRetries.toNat none [] 0).result = _
    rw [hk]
    simp [doAux, h0, hr0, h1, hr1, hc0, hc1, hne0, hne1]
  · show (doAux config op ctxDone rand 0 config.MaxRetries.toNat none [] 0).invocations = 2
    rw [hk]
    simp [doAux, h0, hr0, h1, hr1, hc0, hc1, hne0, hne1]

/-- C8 witness: the always-retryably-failing operation against the
three-attempt policy, with the context firing during the second wait. -/
theorem C8_confirmed_witness :
    (2 : Int) ≤ cfg3.MaxRetries ∧
    (Do cfg3 opAlways ctxAt1 rand0).result =
      RunResult.failure "timed out" (some eRetry) ∧
    (Do cfg3 opAlways ctxAt1 rand0).invocations = 2 :=
  have h := C8_confirmed cfg3 opAlways ctxAt1 rand0 eRetry eRetry (by decide) rfl
    (by decide) rfl (by decide) rfl rfl
  ⟨by decide, h.1, h.2⟩

/-- The repository's own test fixture error is retryable. -/
lemma isRetryable_eRetry : IsRetryable eRetry = true := by decide

/-- Every run result is success or a failure whose message tag is one of
the three reason tags. -/
lemma doAux_result_shape (config : Config) (op : Nat → Option GoError)
    (ctxDone : Nat → Bool) (rand : Nat → Rat) :
    ∀ fuel attempt lastErr tr count,
      (doAux config op ctxDone rand attempt fuel lastErr tr count).result
          = .success ∨
      ∃ tag c, (doAux config op ctxDone rand attempt fuel lastErr tr count).result
          = .failure tag c ∧ (reasonOfTag tag).isSome := by
  intro fuel
  induction fuel with
  | zero =>
    intro attempt lastErr tr count
    exact Or.inr ⟨"retries exceeded", lastErr, rfl, rfl⟩
  | succ n ih =>
    intro attempt lastErr tr count
    simp only [doAux]
    split
    · exact Or.inl rfl
    · split
      · exact Or.inr ⟨"not retryable error", _, rfl, rfl⟩
      · split
        · exact Or.inr ⟨"retries exceeded", _, rfl, rfl⟩
        · split
          · exact Or.inr ⟨"timed out", _, rfl, rfl⟩
          · exact ih _ _ _ _

/-- C2: the claim is refuted on its programmatic-distinguishability part:
two runs, one ending in exhaustion and one cancelled during a wait, return
failure values that are identical apart from their message strings — the
returned error is a `fmt.Errorf` wrapper in all three cases, with no
sentinel, type or field other than the message text identifying the
reason, so a caller cannot tell exhaustion from cancellation without
inspecting the message string. -/
theorem C2_counterexample :
    (Do cfg1 opAlways ctxNever rand0).result =
      RunResult.failure "retries exceeded" (some eRetry) ∧
    (Do cfg1 opAlways ctxAt0 rand0).result =
      RunResult.failure "timed out" (some eRetry) ∧
    (Do cfg1 opAlways ctxNever rand0).result ≠ (Do cfg1 opAlways ctxAt0 rand0).result ∧
    eraseResultMsg (Do cfg1 opAlways ctxNever rand0).result =
      eraseResultMsg (Do cfg1 opAlways ctxAt0 rand0).result := by decide

/-- C2 (amended): every run ends in success or in exactly one of the three
failure reasons (the reasons are mutually exclusive and exhaustive, and
the three message tags are pairwise distinct), but the reason is carried
only by the message tag of the returned failure value. -/
theorem C2_amended (config : Config) (op : Nat → Option GoError)
    (ctxDone : Nat → Bool) (rand : Nat → Rat) :
    ((Do config op ctxDone rand).result = .success ∨
      ∃ tag c, (Do config op ctxDone rand).result = .failure tag c ∧
        (reasonOfTag tag).isSome) ∧
    reasonOfTag "not retryable error" ≠ reasonOfTag "retries exceeded" ∧
    reasonOfTag "not retryable error" ≠ reasonOfTag "timed out" ∧
    reasonOfTag "retries exceeded" ≠ reasonOfTag "timed out" :=
  ⟨doAux_result_shape config op ctxDone rand config.MaxRetries.toNat 0 none [] 0,
    by decide, by decide, by decide⟩

/-- C3: code bug, evaluated at the failing input.  With `MaxRetries = 1`
and an operation failing retryably, the final (only) attempt is followed
by a backoff computation and a cancellable wait: `DoWithNotify` invokes
the notify callback with the computed backoff after the final attempt,
and a context that fires during that wait turns the exhausted run into a
"timed out" failure.  The `attempt == config.MaxRetries` break inside the
loop is dead (the guard is `attempt < config.MaxRetries`), so exhaustion
is only ever reported after the loop exits, one full backoff wait later
than the claim requires. -/
theorem C3_codebug :
    (Do cfg1 opAlways ctxAt0 rand0).result =
      RunResult.failure "timed out" (some eRetry) ∧
    (Do cfg1 opAlways ctxAt0 rand0).invocations = 1 ∧
    (DoWithNotify cfg1 opAlways ctxNever rand0 true).result =
      RunResult.failure "retries exceeded" (some eRetry) ∧
    (DoWithNotify cfg1 opAlways ctxNever rand0 true).trace =
      [Event.invoke 0, Event.notifyCall eRetry 10] := by
  refine ⟨by decide, by decide, by decide, ?_⟩
  have hb : calculateBackoff 0 cfg1 (rand0 0) = 10 := by
    norm_num [calculateBackoff, cfg1, rand0]
  show (doWithNotifyAux cfg1 opAlways ctxNever rand0 true 0 (0 + 1) none [] 0).trace = _
  simp only [doWithNotifyAux, hb]
  simp [opAlways, isRetryable_eRetry, cfg1, ctxNever]

/-- The `DoWithNotify` loop appends no print event to the trace. -/
lemma doWithNotifyAux_no_print (config : Config) (op : Nat → Option GoError)
    (ctxDone : Nat → Bool) (rand : Nat → Rat) (notifyNonNil : Bool) :
    ∀ fuel attempt lastErr tr count,
      ((doWithNotifyAux config op ctxDone rand notifyNonNil attempt fuel lastErr tr
          count).trace).filter (fun ev => ev.isPrintAttempt) =
        tr.filter (fun ev => ev.isPrintAttempt) := by
  intro fuel
  induction fuel with
  | zero => intro attempt lastErr tr count; rfl
  | succ n ih =>
    intro attempt lastErr tr count
    simp only [doWithNotifyAux]
    split
    · simp [Event.isPrintAttempt]
    · split
      · simp [Event.isPrintAttempt]
      · split
        · simp [Event.isPrintAttempt]
        · split
          · split <;> simp [Event.isPrintAttempt]
          · rw [ih]
            split <;> simp [Event.isPrintAttempt]

/-- C4: code bug, evaluated at a failing input.  `Do` writes its
"Attempt %d/%d" diagnostic to standard output on a failed attempt —
console I/O beyond invoking the operation — while `DoWithNotify`, for
every context, policy, operation, jitter source and callback, writes
nothing to the console. -/
theorem C4_codebug :
    Event.printAttempt 0 cfg3.MaxRetries eRetry ∈
      (Do cfg3 opSucceedAt1 ctxNever rand0).trace ∧
    (∀ (config : Config) (op : Nat → Option GoError) (ctxDone : Nat → Bool)
        (rand : Nat → Rat) (notifyNonNil : Bool),
      ((DoWithNotify config op ctxDone rand notifyNonNil).trace).filter
          (fun ev => ev.isPrintAttempt) = []) :=
  ⟨by decide, fun config op ctxDone rand notifyNonNil =>
    doWithNotifyAux_no_print config op ctxDone rand notifyNonNil
      config.MaxRetries.toNat 0 none [] 0⟩

/-- With a nil notify callback, the `DoWithNotify` loop computes exactly
the run of the `Do` loop minus its print events. -/
lemma doWithNotifyAux_nil (config : Config) (op : Nat → Option GoError)
    (ctxDone : Nat → Bool) (rand : Nat → Rat) :
    ∀ fuel attempt lastErr count tr,
      doWithNotifyAux config op ctxDone rand false attempt fuel lastErr
          (tr.filter (fun ev => !ev.isPrintAttempt)) count =
        ⟨(doAux config op ctxDone rand attempt fuel lastErr tr count).result,
          ((doAux config op ctxDone rand attempt fuel lastErr tr count).trace).filter
            (fun ev => !ev.isPrintAttempt),
          (doAux config op ctxDone rand attempt fuel lastErr tr count).invocations⟩ := by
  intro fuel
  induction fuel with
  | zero => intro attempt lastErr count tr; rfl
  | succ n ih =>
    intro attempt lastErr count tr
    simp only [doAux, doWithNotifyAux]
    cases hoe : op attempt with
    | none => simp [List.filter_append, Event.isPrintAttempt]
    | some e =>
      by_cases hre : IsRetryable e
      · simp only [hre, Bool.not_true, Bool.false_eq_true, if_false]
        by_cases hdead : ((attempt : Int) = config.MaxRetries)
        · simp [hdead, List.filter_append, Event.isPrintAttempt]
        · simp only [if_neg hdead, Bool.false_eq_true, if_false]
          cases hcd : ctxDone attempt with
          | true => simp [List.filter_append, Event.isPrintAttempt]
          | false =>
            have hrec := ih (attempt + 1) (some e) (count + 1)
              (tr ++ [.invoke attempt, .printAttempt attempt config.MaxRetries e])
            rw [List.filter_append] at hrec
            simp only [List.filter_cons, List.filter_nil, Event.isPrintAttempt,
              Bool.not_true, Bool.not_false, Bool.false_eq_true, if_false,
              if_true] at hrec
            simpa [List.filter_append, Event.isPrintAttempt] using hrec
      · simp [eq_false_of_ne_true hre, List.filter_append, Event.isPrintAttempt]

/-- C10: with a nil notify callback, `DoWithNotify` returns the same
result after the same number of operation invocations as `Do` on the same
context, policy, operation results and jitter draws; the traces differ
only by `Do`'s print events. -/
theorem C10_confirmed (config : Config) (op : Nat → Option GoError)
    (ctxDone : Nat → Bool) (rand : Nat → Rat) :
    (DoWithNotify config op ctxDone rand false).result =
      (Do config op ctxDone rand).result ∧
    (DoWithNotify config op ctxDone rand false).invocations =
      (Do config op ctxDone rand).invocations ∧
    (DoWithNotify config op ctxDone rand false).trace =
      ((Do config op ctxDone rand).trace).filter (fun ev => !ev.isPrintAttempt) := by
  have h := doWithNotifyAux_nil config op ctxDone rand config.MaxRetries.toNat 0 none 0 []
  simp only [List.filter_nil] at h
  unfold DoWithNotify Do
  rw [h]
  exact ⟨rfl, rfl, rfl⟩

end Retry
